import Mathlib

/-!
Shallow embedding of the avalanchego caching layer
(`vms/components/chain/cache.go`) and the avalanche bootstrap vertex job
(`snow/engine/avalanche/bootstrap/vertex_job.go`).

Blocks and vertices are modelled as pure records; the Go pointer mutation
performed by `SetStatus` / `Accept` is modelled by returning the updated
record.  The three LRU caches are modelled as association lists with
`Put` / `Get` / `Evict` / `Flush`; capacity eviction is not modelled (it only
removes entries, which none of the verified properties depend on).
Collaborator functions (store, unmarshaler, builder, height oracle) are
stored in the `Cache` record exactly as the Go struct stores them.
-/

/-- `choices.Status` from `snow/choices`. -/
inductive Status where
  | Unknown
  | Processing
  | Rejected
  | Accepted
deriving DecidableEq, Repr

/-- `choices.Status.String()`, as used by `fmt` verbs in error messages. -/
def Status.str : Status → String
  | .Unknown => "Unknown"
  | .Processing => "Processing"
  | .Rejected => "Rejected"
  | .Accepted => "Accepted"

namespace Chain

/-- `ids.ID`, abstracted to a natural number. -/
abbrev ID := Nat

/-- Serialized block bytes. -/
abbrev Bytes := List Nat

/-- A `snowman.Block`.  `isChainBlock` records whether the dynamic value also
implements the package's extended `Block` interface (i.e. whether the Go type
assertion `blk.(Block)` in `produceGetStatus` succeeds). -/
structure Blk where
  id : ID
  height : Nat
  status : Status
  isChainBlock : Bool
deriving DecidableEq, Repr

/-- `SetStatus` on the extended `Block` interface (pointer mutation in Go,
functional update here). -/
def Blk.setStatus (b : Blk) (s : Status) : Blk :=
  { b with status := s }

/-- `BlockWrapper`: wraps one underlying block.  The Go back-reference to the
owning cache carries no data relevant to the verified claims and is omitted. -/
structure BlockWrapper where
  blk : Blk
deriving DecidableEq, Repr

/-- Errors produced by a `getStatus` strategy. -/
inductive StatusError where
  | typeMismatch
  | oracleFailure (height : Nat)
  | nilFunction
deriving DecidableEq, Repr

/-- Errors returned by the store collaborator (`Config.GetBlock`).
`blockNotFound` is the sentinel `ErrBlockNotFound`. -/
inductive StoreErr where
  | blockNotFound
  | other (msg : String)
deriving DecidableEq, Repr

/-- Errors surfaced by the cache's public operations. -/
inductive Err where
  | blockNotFound
  | store (msg : String)
  | collaborator (msg : String)
  | getStatusFailed (blkID : ID) (e : StatusError)
  | unexpectedStatus (blkID : ID) (s : Status)
deriving DecidableEq, Repr

/-- The status-resolver strategy held in the cache's `getStatus` field.
`direct` is the default installed by `NewCache`; `heightInferred` is installed
by both constructors when `Config.GetBlockIDAtHeight` is non-nil; `unset`
models the nil function pointer that `NewMeteredCache` leaves behind when no
oracle is supplied. -/
inductive GetStatusFn where
  | direct
  | heightInferred (getBlockIDAtHeight : Nat → Except String ID)
  | unset

/-- The closure returned by `produceGetStatus`, applied to a block.  The Go
closure reads `c.lastAcceptedBlock.Height()` at call time; that height is
passed here as `lastAcceptedHeight`.  On success the (possibly mutated) block
is returned alongside the status. -/
def produceGetStatus (getBlockIDAtHeight : Nat → Except String ID)
    (lastAcceptedHeight : Nat) (blk : Blk) : Except StatusError (Status × Blk) :=
  if !blk.isChainBlock then
    .error .typeMismatch
  else if blk.height > lastAcceptedHeight then
    .ok (.Processing, blk.setStatus .Processing)
  else
    match getBlockIDAtHeight blk.height with
    | .error _ => .error (.oracleFailure blk.height)
    | .ok acceptedID =>
      if acceptedID = blk.id then
        .ok (.Accepted, blk.setStatus .Accepted)
      else
        .ok (.Rejected, blk.setStatus .Rejected)

/-- Run whichever `getStatus` strategy the cache holds. -/
def runGetStatus (fn : GetStatusFn) (lastAcceptedHeight : Nat) (blk : Blk) :
    Except StatusError (Status × Blk) :=
  match fn with
  | .direct => .ok (blk.status, blk)
  | .heightInferred oracle => produceGetStatus oracle lastAcceptedHeight blk
  | .unset => .error .nilFunction

/-- Association-list lookup keyed on block ID (`cache.Cacher.Get` / map read). -/
def lookupA (k : ID) : List (ID × BlockWrapper) → Option BlockWrapper
  | [] => none
  | (k', v) :: rest => if k' = k then some v else lookupA k rest

/-- `cache.Cacher.Put`: insert, replacing any previous entry for the key. -/
def putAssoc (l : List (ID × BlockWrapper)) (k : ID) (v : BlockWrapper) :
    List (ID × BlockWrapper) :=
  (k, v) :: l.filter (fun p => p.1 ≠ k)

/-- Keys present in an association list. -/
def keysOf (l : List (ID × BlockWrapper)) : List ID :=
  l.map Prod.fst

/-- `missingBlocks.Put(blkID, struct\x7b\x7d\x7b\x7d)`: record an ID as missing. -/
def insertID (k : ID) (l : List ID) : List ID :=
  if k ∈ l then l else k :: l

/-- The `Cache` struct.  Collaborator functions are carried exactly as the Go
struct carries them; the tier caches are the data fields. -/
structure Cache where
  getBlock : ID → Except StoreErr Blk
  unmarshalBlock : Bytes → Except String Blk
  buildBlock : Except String Blk
  getStatusFn : GetStatusFn
  verifiedBlocks : List (ID × BlockWrapper)
  decidedBlocks : List (ID × BlockWrapper)
  unverifiedBlocks : List (ID × BlockWrapper)
  missingBlocks : List ID
  lastAcceptedBlock : BlockWrapper

/-- `Config`: constructor parameters (cache sizes omitted — capacity eviction
is not modelled). -/
structure Config where
  lastAcceptedBlock : Blk
  getBlock : ID → Except StoreErr Blk
  unmarshalBlock : Bytes → Except String Blk
  buildBlock : Except String Blk
  getBlockIDAtHeight : Option (Nat → Except String ID)

/-- `NewCache`: installs the direct resolver, overriding it with the
height-inferred one when an oracle is supplied, and seeds `decidedBlocks`
with the last accepted block. -/
def NewCache (config : Config) : Cache :=
  let lastW : BlockWrapper := ⟨config.lastAcceptedBlock⟩
  { getBlock := config.getBlock
    unmarshalBlock := config.unmarshalBlock
    buildBlock := config.buildBlock
    getStatusFn :=
      match config.getBlockIDAtHeight with
      | none => .direct
      | some f => .heightInferred f
    verifiedBlocks := []
    decidedBlocks := putAssoc [] config.lastAcceptedBlock.id lastW
    unverifiedBlocks := []
    missingBlocks := []
    lastAcceptedBlock := lastW }

/-- `NewMeteredCache`: identical to `NewCache` except that the struct literal
never initialises `getStatus`, so without an oracle the field stays nil
(`GetStatusFn.unset`).  The metered cache wrappers themselves do not change
`Get`/`Put`/`Evict`/`Flush` behaviour and are not modelled. -/
def NewMeteredCache (config : Config) : Cache :=
  let lastW : BlockWrapper := ⟨config.lastAcceptedBlock⟩
  { getBlock := config.getBlock
    unmarshalBlock := config.unmarshalBlock
    buildBlock := config.buildBlock
    getStatusFn :=
      match config.getBlockIDAtHeight with
      | none => .unset
      | some f => .heightInferred f
    verifiedBlocks := []
    decidedBlocks := putAssoc [] config.lastAcceptedBlock.id lastW
    unverifiedBlocks := []
    missingBlocks := []
    lastAcceptedBlock := lastW }

/-- `Cache.getCachedBlock`: look a wrapper up by priority
verified → decided → unverified. -/
def Cache.getCachedBlock (c : Cache) (blkID : ID) : Option BlockWrapper :=
  match lookupA blkID c.verifiedBlocks with
  | some blk => some blk
  | none =>
    match lookupA blkID c.decidedBlocks with
    | some blk => some blk
    | none => lookupA blkID c.unverifiedBlocks

/-- `Cache.addBlockOutsideConsensus`: wrap the block, resolve its status, and
place the wrapper in the tier the status selects.  The Go code builds the
wrapper around the block pointer before calling `getStatus`, so the wrapper
observes any `SetStatus` mutation: here the wrapper wraps the block returned
by the resolver.  Returns the result together with the cache state (unchanged
on error). -/
def Cache.addBlockOutsideConsensus (c : Cache) (blk : Blk) :
    Except Err BlockWrapper × Cache :=
  let blkID := blk.id
  match runGetStatus c.getStatusFn c.lastAcceptedBlock.blk.height blk with
  | .error e => (.error (.getStatusFailed blkID e), c)
  | .ok (status, blk') =>
    let wrappedBlk : BlockWrapper := ⟨blk'⟩
    match status with
    | .Accepted =>
      (.ok wrappedBlk, { c with decidedBlocks := putAssoc c.decidedBlocks blkID wrappedBlk })
    | .Rejected =>
      (.ok wrappedBlk, { c with decidedBlocks := putAssoc c.decidedBlocks blkID wrappedBlk })
    | .Processing =>
      (.ok wrappedBlk, { c with unverifiedBlocks := putAssoc c.unverifiedBlocks blkID wrappedBlk })
    | .Unknown => (.error (.unexpectedStatus blkID .Unknown), c)

/-- `Cache.GetBlock`: cached wrapper, else negative-cache hit, else store
lookup; a store `ErrBlockNotFound` is negatively cached, any other store
error is propagated uncached; a found block is classified outside consensus. -/
def Cache.GetBlock (c : Cache) (blkID : ID) : Except Err BlockWrapper × Cache :=
  match c.getCachedBlock blkID with
  | some blk => (.ok blk, c)
  | none =>
    if blkID ∈ c.missingBlocks then
      (.error .blockNotFound, c)
    else
      match c.getBlock blkID with
      | .error .blockNotFound =>
        (.error .blockNotFound, { c with missingBlocks := insertID blkID c.missingBlocks })
      | .error (.other msg) => (.error (.store msg), c)
      | .ok blk => c.addBlockOutsideConsensus blk

/-- `Cache.ParseBlock`: unmarshal, return the existing canonical wrapper when
one is cached, otherwise evict the ID from `missingBlocks` and classify. -/
def Cache.ParseBlock (c : Cache) (b : Bytes) : Except Err BlockWrapper × Cache :=
  match c.unmarshalBlock b with
  | .error msg => (.error (.collaborator msg), c)
  | .ok blk =>
    let blkID := blk.id
    match c.getCachedBlock blkID with
    | some cachedBlk => (.ok cachedBlk, c)
    | none =>
      let c' := { c with missingBlocks := c.missingBlocks.filter (fun k => k ≠ blkID) }
      c'.addBlockOutsideConsensus blk

/-- `Cache.BuildBlock`: build, return the existing canonical wrapper when one
is cached, otherwise evict the ID from `missingBlocks` and classify. -/
def Cache.BuildBlock (c : Cache) : Except Err BlockWrapper × Cache :=
  match c.buildBlock with
  | .error msg => (.error (.collaborator msg), c)
  | .ok blk =>
    let blkID := blk.id
    match c.getCachedBlock blkID with
    | some existingBlk => (.ok existingBlk, c)
    | none =>
      let c' := { c with missingBlocks := c.missingBlocks.filter (fun k => k ≠ blkID) }
      c'.addBlockOutsideConsensus blk

/-- `Cache.FlushCaches`: clears `decidedBlocks`, `missingBlocks` and
`unverifiedBlocks` (not `verifiedBlocks`, not `lastAcceptedBlock`). -/
def Cache.FlushCaches (c : Cache) : Cache :=
  { c with decidedBlocks := [], missingBlocks := [], unverifiedBlocks := [] }

/-- One public mutating call on the cache. -/
inductive CacheOp where
  | getBlock (blkID : ID)
  | parseBlock (b : Bytes)
  | buildBlock
  | flushCaches

/-- The state after one public call (the returned value is discarded). -/
def Cache.applyOp (c : Cache) : CacheOp → Cache
  | .getBlock blkID => (c.GetBlock blkID).2
  | .parseBlock b => (c.ParseBlock b).2
  | .buildBlock => (c.BuildBlock).2
  | .flushCaches => c.FlushCaches

/-- The state after a sequence of public calls. -/
def Cache.runOps (c : Cache) : List CacheOp → Cache
  | [] => c
  | op :: rest => (c.applyOp op).runOps rest

/-- Tier exclusivity: every ID lives in at most one of the three positive
tiers, and no ID is simultaneously in a positive tier and in `missingBlocks`. -/
def Cache.TierExclusive (c : Cache) : Prop :=
  (∀ id ∈ keysOf c.verifiedBlocks,
     id ∉ keysOf c.decidedBlocks ∧ id ∉ keysOf c.unverifiedBlocks ∧ id ∉ c.missingBlocks) ∧
  (∀ id ∈ keysOf c.decidedBlocks,
     id ∉ keysOf c.unverifiedBlocks ∧ id ∉ c.missingBlocks) ∧
  (∀ id ∈ keysOf c.unverifiedBlocks, id ∉ c.missingBlocks)

/-- The store collaborator returns blocks carrying the requested ID
(`getBlock` is a lookup by ID). -/
def Cache.StoreConsistent (c : Cache) : Prop :=
  ∀ i b, c.getBlock i = .ok b → b.id = i

instance (c : Cache) : Decidable c.TierExclusive := by
  unfold Cache.TierExclusive
  infer_instance

end Chain

namespace Bootstrap

/-- `ids.ID`, abstracted to a natural number. -/
abbrev ID := Nat

/-- A transaction referenced by a vertex; only its status is consulted. -/
structure Tx where
  status : Status
deriving DecidableEq, Repr

/-- An `avalanche.Vertex`.  The collaborator calls `Parents()`, `Txs()` and
`Accept()` are modelled by their outcomes carried on the vertex
(`acceptRes = none` means `Accept()` succeeds and mutates the status to
Accepted). -/
structure Vertex where
  id : ID
  parentsRes : Except String (List ID)
  txsRes : Except String (List Tx)
  status : Status
  acceptRes : Option String
  bytes : List Nat

/-- The `vertex.Manager` collaborator: parent resolution and persistence. -/
structure Manager where
  getVertex : ID → Except String Vertex
  saveVertexRes : Vertex → Option String

/-- `ids.Set.Add`: insert an ID into a set (no duplicates). -/
def setAdd (s : List ID) (k : ID) : List ID :=
  if k ∈ s then s else s ++ [k]

/-- The parent loop of `MissingDependencies`: a parent is added to `missing`
when resolution fails or the resolved parent's status is not Accepted. -/
def addMissing (mgr : Manager) : List ID → List ID → List ID
  | missing, [] => missing
  | missing, parentID :: rest =>
    match mgr.getVertex parentID with
    | .error _ => addMissing mgr (setAdd missing parentID) rest
    | .ok parent =>
      if parent.status ≠ Status.Accepted then
        addMissing mgr (setAdd missing parentID) rest
      else
        addMissing mgr missing rest

/-- `vertexJob.MissingDependencies`: Go returns the pair `(ids.Set, error)`;
on a `Parents()` failure the set is still the empty set it started from. -/
def MissingDependencies (mgr : Manager) (vtx : Vertex) : List ID × Option String :=
  match vtx.parentsRes with
  | .error e => ([], some e)
  | .ok parentIDs => (addMissing mgr [] parentIDs, none)

/-- The observable effects of one `vertexJob.Execute` call: the returned
error (`none` = nil), how much each prometheus counter was incremented,
whether `Accept()` / `SaveVertex` were invoked, whether the warning was
logged, and the vertex's status afterwards. -/
structure ExecEffects where
  result : Option String
  droppedInc : Nat
  acceptedInc : Nat
  acceptCalled : Bool
  saveCalled : Bool
  warned : Bool
  vtxStatus : Status
deriving DecidableEq, Repr

/-- `vertexJob.Execute`, as a function from the job's collaborator outcomes
to its observable effects. -/
def Execute (mgr : Manager) (vtx : Vertex) : ExecEffects :=
  let base : ExecEffects :=
    { result := none, droppedInc := 0, acceptedInc := 0,
      acceptCalled := false, saveCalled := false, warned := false,
      vtxStatus := vtx.status }
  match MissingDependencies mgr vtx with
  | (_, some e) => { base with result := some e }
  | (deps, none) =>
    if deps.length ≠ 0 then
      { base with result := some "attempting to execute blocked vertex", droppedInc := 1 }
    else
      match vtx.txsRes with
      | .error e => { base with result := some e }
      | .ok txs =>
        if txs.any (fun tx => tx.status ≠ Status.Accepted) then
          { base with droppedInc := 1, warned := true }
        else
          match vtx.status with
          | .Unknown =>
            { base with
              result := some ("attempting to execute vertex with status " ++ Status.str .Unknown)
              droppedInc := 1 }
          | .Rejected =>
            { base with
              result := some ("attempting to execute vertex with status " ++ Status.str .Rejected)
              droppedInc := 1 }
          | .Processing =>
            match vtx.acceptRes with
            | some e =>
              { base with
                result := some ("failed to accept vertex in bootstrapping: " ++ e)
                acceptedInc := 1, acceptCalled := true }
            | none =>
              match mgr.saveVertexRes { vtx with status := Status.Accepted } with
              | some e =>
                { result := some ("failed to save block " ++ toString vtx.id
                    ++ " to VM's database: " ++ e)
                  droppedInc := 0, acceptedInc := 1, acceptCalled := true
                  saveCalled := true, warned := false, vtxStatus := Status.Accepted }
              | none =>
                { result := none, droppedInc := 0, acceptedInc := 1, acceptCalled := true
                  saveCalled := true, warned := false, vtxStatus := Status.Accepted }
          | .Accepted => base

end Bootstrap

/-- Does `pat` match at the head of `hay`? -/
def matchHead : List Char → List Char → Bool
  | [], _ => true
  | _ :: _, [] => false
  | p :: ps, h :: hs => if p = h then matchHead ps hs else false

/-- Does `pat` occur contiguously anywhere in `hay`? -/
def occursIn (pat : List Char) : List Char → Bool
  | [] => pat.isEmpty
  | h :: hs => matchHead pat (h :: hs) || occursIn pat hs

/-- Does the string `hay` contain `pat` as a contiguous substring? -/
def strContains (hay pat : String) : Bool :=
  occursIn pat.data hay.data

/-- A parent counts as missing when resolution fails or the resolved parent
is not Accepted — the condition of the loop in `MissingDependencies`. -/
def Bootstrap.parentMissing (mgr : Bootstrap.Manager) (p : Bootstrap.ID) : Prop :=
  match mgr.getVertex p with
  | .error _ => True
  | .ok parent => parent.status ≠ Status.Accepted

/-! ## Helper lemmas -/

theorem matchHead_self_append (p t : List Char) : matchHead p (p ++ t) = true := by
  induction p with
  | nil => rfl
  | cons a as ih => simp [matchHead, ih]

theorem occursIn_nil_pat (l : List Char) : occursIn [] l = true := by
  cases l <;> simp [occursIn, matchHead]

theorem occursIn_append (s p t : List Char) : occursIn p (s ++ p ++ t) = true := by
  induction s with
  | nil =>
    cases p with
    | nil => simpa using occursIn_nil_pat t
    | cons a as =>
      simp only [List.nil_append, List.cons_append, occursIn]
      have := matchHead_self_append (a :: as) t
      simp only [List.cons_append] at this
      simp [this]
  | cons ch s' ih =>
    simp only [List.cons_append, occursIn, List.append_eq, ih, Bool.or_true]

theorem occursIn_of_eq (p l s t : List Char) (h : l = s ++ (p ++ t)) :
    occursIn p l = true := by
  subst h
  have := occursIn_append s p t
  simpa [List.append_assoc] using this

theorem string_data_append (a b : String) : (a ++ b).data = a.data ++ b.data := by
  cases a
  cases b
  rfl

theorem mem_setAdd {p k : Bootstrap.ID} {s : List Bootstrap.ID} :
    p ∈ Bootstrap.setAdd s k ↔ p ∈ s ∨ p = k := by
  unfold Bootstrap.setAdd
  split
  · constructor
    · exact fun h => Or.inl h
    · rintro (h | rfl)
      · exact h
      · assumption
  · simp [List.mem_append]

theorem mem_addMissing (mgr : Bootstrap.Manager) (ps : List Bootstrap.ID)
    (acc : List Bootstrap.ID) (p : Bootstrap.ID) :
    p ∈ Bootstrap.addMissing mgr acc ps ↔
      p ∈ acc ∨ (p ∈ ps ∧ Bootstrap.parentMissing mgr p) := by
  induction ps generalizing acc with
  | nil => simp [Bootstrap.addMissing]
  | cons q rest ih =>
    simp only [Bootstrap.addMissing]
    cases hq : mgr.getVertex q with
    | error e =>
      have hbq : Bootstrap.parentMissing mgr q := by
        unfold Bootstrap.parentMissing
        rw [hq]
        trivial
      rw [ih]
      simp only [mem_setAdd, List.mem_cons]
      constructor
      · rintro ((h | rfl) | ⟨h1, h2⟩)
        · exact Or.inl h
        · exact Or.inr ⟨Or.inl rfl, hbq⟩
        · exact Or.inr ⟨Or.inr h1, h2⟩
      · rintro (h | ⟨(rfl | h1), h2⟩)
        · exact Or.inl (Or.inl h)
        · exact Or.inl (Or.inr rfl)
        · exact Or.inr ⟨h1, h2⟩
    | ok parent =>
      by_cases hs : parent.status = Status.Accepted
      · have hbq : ¬ Bootstrap.parentMissing mgr q := by
          unfold Bootstrap.parentMissing
          rw [hq]
          simp [hs]
        simp only [hs, ne_eq, not_true_eq_false, if_false]
        rw [ih]
        simp only [List.mem_cons]
        constructor
        · rintro (h | ⟨h1, h2⟩)
          · exact Or.inl h
          · exact Or.inr ⟨Or.inr h1, h2⟩
        · rintro (h | ⟨(rfl | h1), h2⟩)
          · exact Or.inl h
          · exact absurd h2 hbq
          · exact Or.inr ⟨h1, h2⟩
      · have hbq : Bootstrap.parentMissing mgr q := by
          unfold Bootstrap.parentMissing
          rw [hq]
          exact hs
        simp only [ne_eq, hs, not_false_eq_true, if_true]
        rw [ih]
        simp only [mem_setAdd, List.mem_cons]
        constructor
        · rintro ((h | rfl) | ⟨h1, h2⟩)
          · exact Or.inl h
          · exact Or.inr ⟨Or.inl rfl, hbq⟩
          · exact Or.inr ⟨Or.inr h1, h2⟩
        · rintro (h | ⟨(rfl | h1), h2⟩)
          · exact Or.inl (Or.inl h)
          · exact Or.inl (Or.inr rfl)
          · exact Or.inr ⟨h1, h2⟩

theorem not_parentMissing_iff (mgr : Bootstrap.Manager) (p : Bootstrap.ID) :
    ¬ Bootstrap.parentMissing mgr p ↔
      ∃ parent, mgr.getVertex p = .ok parent ∧ parent.status = Status.Accepted := by
  unfold Bootstrap.parentMissing
  cases hq : mgr.getVertex p <;> simp [hq]


theorem lookupA_none_not_mem {k : Chain.ID} {l : List (Chain.ID × Chain.BlockWrapper)}
    (h : Chain.lookupA k l = none) : k ∉ Chain.keysOf l := by
  induction l with
  | nil => simp [Chain.keysOf]
  | cons hd tl ih =>
    obtain ⟨k', v⟩ := hd
    unfold Chain.lookupA at h
    by_cases hk : k' = k
    · simp [hk] at h
    · simp only [hk, if_false] at h
      simp only [Chain.keysOf, List.map_cons, List.mem_cons]
      rintro (rfl | hmem)
      · exact hk rfl
      · exact ih h hmem

theorem mem_keysOf_putAssoc {id' k : Chain.ID} {v : Chain.BlockWrapper}
    {l : List (Chain.ID × Chain.BlockWrapper)}
    (h : id' ∈ Chain.keysOf (Chain.putAssoc l k v)) : id' = k ∨ id' ∈ Chain.keysOf l := by
  unfold Chain.putAssoc Chain.keysOf at h
  simp only [List.map_cons, List.mem_cons, List.mem_map] at h
  rcases h with rfl | ⟨p, hp, rfl⟩
  · exact Or.inl rfl
  · exact Or.inr (by
      simp only [Chain.keysOf, List.mem_map]
      exact ⟨p, (List.mem_filter.mp hp).1, rfl⟩)

theorem mem_insertID {id' k : Chain.ID} {l : List Chain.ID}
    (h : id' ∈ Chain.insertID k l) : id' = k ∨ id' ∈ l := by
  unfold Chain.insertID at h
  split at h
  · exact Or.inr h
  · rcases List.mem_cons.mp h with rfl | hm
    · exact Or.inl rfl
    · exact Or.inr hm

theorem mem_insertID_self (k : Chain.ID) (l : List Chain.ID) : k ∈ Chain.insertID k l := by
  unfold Chain.insertID
  split
  · assumption
  · exact List.mem_cons_self k l

theorem not_mem_filter_ne (k : Chain.ID) (l : List Chain.ID) :
    k ∉ l.filter (fun x => x ≠ k) := by
  intro h
  have := List.mem_filter.mp h
  simp at this

theorem mem_filter_sub {id' k : Chain.ID} {l : List Chain.ID}
    (h : id' ∈ l.filter (fun x => x ≠ k)) : id' ∈ l :=
  (List.mem_filter.mp h).1

theorem getCachedBlock_none {c : Chain.Cache} {id : Chain.ID}
    (h : c.getCachedBlock id = none) :
    Chain.lookupA id c.verifiedBlocks = none ∧
    Chain.lookupA id c.decidedBlocks = none ∧
    Chain.lookupA id c.unverifiedBlocks = none := by
  unfold Chain.Cache.getCachedBlock at h
  cases h1 : Chain.lookupA id c.verifiedBlocks with
  | some w => rw [h1] at h; exact absurd h (by simp)
  | none =>
    rw [h1] at h
    cases h2 : Chain.lookupA id c.decidedBlocks with
    | some w => rw [h2] at h; exact absurd h (by simp)
    | none =>
      rw [h2] at h
      exact ⟨rfl, rfl, h⟩

/-! ## Claim theorems -/

/-- C1: the height-inferred status resolver classifies a block of height H
against the last accepted height L: H > L yields Processing and mutates the
block's status to Processing; for H ≤ L with a successful oracle call it
yields Accepted (status mutated to Accepted) when the oracle's ID at H equals
the block's ID, and Rejected (status mutated to Rejected) otherwise. -/
theorem claim_c1_height_inferred_resolver
    (oracle : Nat → Except String Chain.ID) (L : Nat) (blk : Chain.Blk)
    (hIface : blk.isChainBlock = true) :
    (blk.height > L →
      Chain.produceGetStatus oracle L blk =
        .ok (.Processing, blk.setStatus .Processing)) ∧
    (blk.height ≤ L → ∀ acceptedID, oracle blk.height = .ok acceptedID →
      (acceptedID = blk.id →
        Chain.produceGetStatus oracle L blk =
          .ok (.Accepted, blk.setStatus .Accepted)) ∧
      (acceptedID ≠ blk.id →
        Chain.produceGetStatus oracle L blk =
          .ok (.Rejected, blk.setStatus .Rejected))) := by
  constructor
  · intro hgt
    simp [Chain.produceGetStatus, hIface, hgt]
  · intro hle acceptedID hOr
    have hnot : ¬ (blk.height > L) := not_lt.mpr hle
    constructor
    · intro heq
      simp [Chain.produceGetStatus, hIface, hnot, hOr, heq]
    · intro hne
      simp [Chain.produceGetStatus, hIface, hnot, hOr, hne]

/-- Witness for C1 at a concrete block and oracle. -/
theorem claim_c1_witness :
    (Chain.Blk.isChainBlock ⟨5, 3, .Unknown, true⟩ = true) ∧
    (Chain.Blk.height ⟨5, 3, .Unknown, true⟩ > 2) ∧
    Chain.produceGetStatus (fun h => .ok h) 2 ⟨5, 3, .Unknown, true⟩ =
      .ok (.Processing, Chain.Blk.setStatus ⟨5, 3, .Unknown, true⟩ .Processing) :=
  ⟨rfl, by decide,
    (claim_c1_height_inferred_resolver (fun h => .ok h) 2 ⟨5, 3, .Unknown, true⟩ rfl).1
      (by decide)⟩

/-- C5: classification outside consensus places the wrapper in `decidedBlocks`
when the resolved status is Accepted or Rejected, in `unverifiedBlocks` when
it is Processing, and for any other resolved status (or a resolver failure)
returns an error and leaves every cache untouched. -/
theorem claim_c5_classify_outside_consensus (c : Chain.Cache) (blk : Chain.Blk) :
    (∀ e, Chain.runGetStatus c.getStatusFn c.lastAcceptedBlock.blk.height blk = .error e →
      c.addBlockOutsideConsensus blk = (.error (.getStatusFailed blk.id e), c)) ∧
    (∀ blk', Chain.runGetStatus c.getStatusFn c.lastAcceptedBlock.blk.height blk =
        .ok (.Accepted, blk') →
      c.addBlockOutsideConsensus blk =
        (.ok ⟨blk'⟩, { c with decidedBlocks := Chain.putAssoc c.decidedBlocks blk.id ⟨blk'⟩ })) ∧
    (∀ blk', Chain.runGetStatus c.getStatusFn c.lastAcceptedBlock.blk.height blk =
        .ok (.Rejected, blk') →
      c.addBlockOutsideConsensus blk =
        (.ok ⟨blk'⟩, { c with decidedBlocks := Chain.putAssoc c.decidedBlocks blk.id ⟨blk'⟩ })) ∧
    (∀ blk', Chain.runGetStatus c.getStatusFn c.lastAcceptedBlock.blk.height blk =
        .ok (.Processing, blk') →
      c.addBlockOutsideConsensus blk =
        (.ok ⟨blk'⟩, { c with unverifiedBlocks := Chain.putAssoc c.unverifiedBlocks blk.id ⟨blk'⟩ })) ∧
    (∀ blk', Chain.runGetStatus c.getStatusFn c.lastAcceptedBlock.blk.height blk =
        .ok (.Unknown, blk') →
      c.addBlockOutsideConsensus blk = (.error (.unexpectedStatus blk.id .Unknown), c)) := by
  refine ⟨?_, ?_, ?_, ?_, ?_⟩ <;> intro x h <;>
    simp [Chain.Cache.addBlockOutsideConsensus, h]

/-- Witness for C5: a direct-resolver cache classifying an Accepted block. -/
theorem claim_c5_witness :
    (Chain.runGetStatus Chain.GetStatusFn.direct 0 ⟨4, 0, .Accepted, true⟩ =
      .ok (.Accepted, ⟨4, 0, .Accepted, true⟩)) ∧
    Chain.Cache.addBlockOutsideConsensus
      { getBlock := fun _ => .error .blockNotFound
        unmarshalBlock := fun _ => .error "na"
        buildBlock := .error "na"
        getStatusFn := .direct
        verifiedBlocks := []
        decidedBlocks := []
        unverifiedBlocks := []
        missingBlocks := []
        lastAcceptedBlock := ⟨⟨0, 0, .Accepted, true⟩⟩ }
      ⟨4, 0, .Accepted, true⟩ =
      (.ok ⟨⟨4, 0, .Accepted, true⟩⟩,
        { getBlock := fun _ => .error .blockNotFound
          unmarshalBlock := fun _ => .error "na"
          buildBlock := .error "na"
          getStatusFn := .direct
          verifiedBlocks := []
          decidedBlocks := [(4, ⟨⟨4, 0, .Accepted, true⟩⟩)]
          unverifiedBlocks := []
          missingBlocks := []
          lastAcceptedBlock := ⟨⟨0, 0, .Accepted, true⟩⟩ }) :=
  ⟨rfl,
    (claim_c5_classify_outside_consensus _ ⟨4, 0, .Accepted, true⟩).2.1
      ⟨4, 0, .Accepted, true⟩ rfl⟩

/-- C10: a `Parents()` failure makes `MissingDependencies` return the error
together with the empty set, and `Execute` propagates that error without
incrementing either counter, calling `Accept`, or changing the status. -/
theorem claim_c10_parents_failure (mgr : Bootstrap.Manager) (vtx : Bootstrap.Vertex)
    (e : String) (h : vtx.parentsRes = .error e) :
    Bootstrap.MissingDependencies mgr vtx = ([], some e) ∧
    Bootstrap.Execute mgr vtx =
      { result := some e, droppedInc := 0, acceptedInc := 0,
        acceptCalled := false, saveCalled := false, warned := false,
        vtxStatus := vtx.status } := by
  constructor
  · simp [Bootstrap.MissingDependencies, h]
  · simp [Bootstrap.Execute, Bootstrap.MissingDependencies, h]

/-- Witness for C10 at a concrete job. -/
theorem claim_c10_witness :
    (Bootstrap.Vertex.parentsRes
        ⟨9, .error "parents unavailable", .ok [], .Processing, none, []⟩ =
      .error "parents unavailable") ∧
    Bootstrap.Execute ⟨fun _ => .error "na", fun _ => none⟩
        ⟨9, .error "parents unavailable", .ok [], .Processing, none, []⟩ =
      { result := some "parents unavailable", droppedInc := 0, acceptedInc := 0,
        acceptCalled := false, saveCalled := false, warned := false,
        vtxStatus := .Processing } :=
  ⟨rfl,
    (claim_c10_parents_failure ⟨fun _ => .error "na", fun _ => none⟩
        ⟨9, .error "parents unavailable", .ok [], .Processing, none, []⟩
        "parents unavailable" rfl).2⟩

/-- C7: with an empty missing-dependency set and at least one referenced
transaction not Accepted, `Execute` increments the dropped counter, logs the
warning, and returns success without calling `Accept`, leaving the vertex's
status unchanged. -/
theorem claim_c7_transaction_gating (mgr : Bootstrap.Manager) (vtx : Bootstrap.Vertex)
    (ps : List Bootstrap.ID) (txs : List Bootstrap.Tx)
    (hps : vtx.parentsRes = .ok ps)
    (hdeps : Bootstrap.addMissing mgr [] ps = [])
    (htxs : vtx.txsRes = .ok txs)
    (hbad : ∃ tx ∈ txs, tx.status ≠ Status.Accepted) :
    Bootstrap.Execute mgr vtx =
      { result := none, droppedInc := 1, acceptedInc := 0,
        acceptCalled := false, saveCalled := false, warned := true,
        vtxStatus := vtx.status } := by
  have hany : txs.any (fun tx => tx.status ≠ Status.Accepted) = true := by
    obtain ⟨tx, htx, hne⟩ := hbad
    exact List.any_eq_true.mpr ⟨tx, htx, by simpa using hne⟩
  simp [Bootstrap.Execute, Bootstrap.MissingDependencies, hps, hdeps, htxs, hany]
  intro hall
  obtain ⟨tx, htx, hne⟩ := hbad
  exact absurd (hall tx htx) hne

/-- Witness for C7 at a concrete job. -/
theorem claim_c7_witness :
    (Bootstrap.Vertex.parentsRes
        ⟨3, .ok [], .ok [⟨.Processing⟩], .Processing, none, []⟩ = .ok []) ∧
    (Bootstrap.addMissing ⟨fun _ => .error "na", fun _ => none⟩ [] [] = []) ∧
    (∃ tx ∈ [(⟨.Processing⟩ : Bootstrap.Tx)], tx.status ≠ Status.Accepted) ∧
    Bootstrap.Execute ⟨fun _ => .error "na", fun _ => none⟩
        ⟨3, .ok [], .ok [⟨.Processing⟩], .Processing, none, []⟩ =
      { result := none, droppedInc := 1, acceptedInc := 0,
        acceptCalled := false, saveCalled := false, warned := true,
        vtxStatus := .Processing } :=
  ⟨rfl, rfl, ⟨⟨.Processing⟩, by decide, by decide⟩,
    claim_c7_transaction_gating ⟨fun _ => .error "na", fun _ => none⟩
      ⟨3, .ok [], .ok [⟨.Processing⟩], .Processing, none, []⟩
      [] [⟨.Processing⟩] rfl rfl rfl ⟨⟨.Processing⟩, by decide, by decide⟩⟩

/-- C6: when `Parents()` succeeds, `MissingDependencies` returns (without
error) exactly the set of parent IDs whose resolution fails or whose resolved
status is not Accepted; the set is empty iff every parent resolves to an
Accepted vertex; and `Execute` run while the set is non-empty increments the
dropped counter and returns an error without calling `Accept` or changing the
vertex's status. -/
theorem claim_c6_dependency_gating (mgr : Bootstrap.Manager) (vtx : Bootstrap.Vertex)
    (ps : List Bootstrap.ID) (hps : vtx.parentsRes = .ok ps) :
    ((Bootstrap.MissingDependencies mgr vtx).2 = none) ∧
    (∀ p, p ∈ (Bootstrap.MissingDependencies mgr vtx).1 ↔
       p ∈ ps ∧ Bootstrap.parentMissing mgr p) ∧
    ((Bootstrap.MissingDependencies mgr vtx).1 = [] ↔
       ∀ p ∈ ps, ∃ parent, mgr.getVertex p = .ok parent ∧
         parent.status = Status.Accepted) ∧
    ((Bootstrap.MissingDependencies mgr vtx).1 ≠ [] →
       Bootstrap.Execute mgr vtx =
         { result := some "attempting to execute blocked vertex",
           droppedInc := 1, acceptedInc := 0, acceptCalled := false,
           saveCalled := false, warned := false, vtxStatus := vtx.status }) := by
  have hMD : Bootstrap.MissingDependencies mgr vtx =
      (Bootstrap.addMissing mgr [] ps, none) := by
    simp [Bootstrap.MissingDependencies, hps]
  have hmem : ∀ p, p ∈ (Bootstrap.MissingDependencies mgr vtx).1 ↔
      p ∈ ps ∧ Bootstrap.parentMissing mgr p := by
    intro p
    rw [hMD]
    simpa using mem_addMissing mgr ps [] p
  refine ⟨by rw [hMD], hmem, ?_, ?_⟩
  · rw [List.eq_nil_iff_forall_not_mem]
    constructor
    · intro h p hp
      rw [← not_parentMissing_iff]
      intro hbad
      exact h p ((hmem p).mpr ⟨hp, hbad⟩)
    · intro h p hp
      obtain ⟨hp1, hp2⟩ := (hmem p).mp hp
      exact absurd hp2 ((not_parentMissing_iff mgr p).mpr (h p hp1))
  · intro hne
    have hlen : (Bootstrap.addMissing mgr [] ps).length ≠ 0 := by
      rw [hMD] at hne
      simpa [List.length_eq_zero] using hne
    simp [Bootstrap.Execute, Bootstrap.MissingDependencies, hps, hlen]

/-- Witness for C6: one unresolvable parent blocks execution. -/
theorem claim_c6_witness :
    (Bootstrap.Vertex.parentsRes
        ⟨4, .ok [11], .ok [], .Processing, none, []⟩ = .ok [11]) ∧
    ((Bootstrap.MissingDependencies ⟨fun _ => .error "na", fun _ => none⟩
        ⟨4, .ok [11], .ok [], .Processing, none, []⟩).1 ≠ []) ∧
    Bootstrap.Execute ⟨fun _ => .error "na", fun _ => none⟩
        ⟨4, .ok [11], .ok [], .Processing, none, []⟩ =
      { result := some "attempting to execute blocked vertex",
        droppedInc := 1, acceptedInc := 0, acceptCalled := false,
        saveCalled := false, warned := false, vtxStatus := .Processing } :=
  ⟨rfl, by decide,
    (claim_c6_dependency_gating ⟨fun _ => .error "na", fun _ => none⟩
        ⟨4, .ok [11], .ok [], .Processing, none, []⟩ [11] rfl).2.2.2 (by decide)⟩

/-- `addBlockOutsideConsensus` never touches `missingBlocks`. -/
theorem addOutside_missing (c : Chain.Cache) (blk : Chain.Blk) :
    (c.addBlockOutsideConsensus blk).2.missingBlocks = c.missingBlocks := by
  unfold Chain.Cache.addBlockOutsideConsensus
  cases Chain.runGetStatus c.getStatusFn c.lastAcceptedBlock.blk.height blk with
  | error e => rfl
  | ok p =>
    obtain ⟨st, blk'⟩ := p
    cases st <;> rfl

/-- C2: a store `ErrBlockNotFound` on `GetBlock` records the ID in
`missingBlocks` and returns the not-found error; any later `GetBlock` for an
ID in `missingBlocks` (on any cache state, hence for any store function)
returns the same not-found error with the state untouched; a successful
`ParseBlock` or `BuildBlock` for the ID on any cache state where the ID is
uncached — in particular one holding the negative entry just recorded —
leaves the ID out of `missingBlocks`, evicting the negative entry; any other
store error is propagated with no caching. -/
theorem claim_c2_negative_caching (c : Chain.Cache) (blkID : Chain.ID)
    (hcached : c.getCachedBlock blkID = none) :
    (blkID ∉ c.missingBlocks → c.getBlock blkID = .error .blockNotFound →
      c.GetBlock blkID =
        (.error .blockNotFound,
          { c with missingBlocks := Chain.insertID blkID c.missingBlocks }) ∧
      blkID ∈ (c.GetBlock blkID).2.missingBlocks) ∧
    (∀ msg, blkID ∉ c.missingBlocks → c.getBlock blkID = .error (.other msg) →
      c.GetBlock blkID = (.error (.store msg), c)) ∧
    (∀ c' : Chain.Cache, c'.getCachedBlock blkID = none → blkID ∈ c'.missingBlocks →
      c'.GetBlock blkID = (.error .blockNotFound, c')) ∧
    (∀ c' : Chain.Cache, c'.getCachedBlock blkID = none →
      ∀ b blk, c'.unmarshalBlock b = .ok blk → blk.id = blkID →
        blkID ∉ (c'.ParseBlock b).2.missingBlocks) ∧
    (∀ c' : Chain.Cache, c'.getCachedBlock blkID = none →
      ∀ blk, c'.buildBlock = .ok blk → blk.id = blkID →
        blkID ∉ (c'.BuildBlock).2.missingBlocks) := by
  refine ⟨?_, ?_, ?_, ?_, ?_⟩
  · intro hmiss hstore
    constructor
    · simp [Chain.Cache.GetBlock, hcached, hmiss, hstore]
    · simp only [Chain.Cache.GetBlock, hcached, hmiss, hstore]
      simpa using mem_insertID_self blkID c.missingBlocks
  · intro msg hmiss hstore
    simp [Chain.Cache.GetBlock, hcached, hmiss, hstore]
  · intro c' hc' hm'
    simp [Chain.Cache.GetBlock, hc', hm']
  · intro c' hc' b blk hum hid
    subst hid
    simp only [Chain.Cache.ParseBlock, hum, hc']
    rw [addOutside_missing]
    exact not_mem_filter_ne blk.id c'.missingBlocks
  · intro c' hc' blk hbb hid
    subst hid
    simp only [Chain.Cache.BuildBlock, hbb, hc']
    rw [addOutside_missing]
    exact not_mem_filter_ne blk.id c'.missingBlocks

/-- Witness for C2: a concrete cache holding a negative entry for ID 7 —
`GetBlock` re-reports not-found with the state untouched, and a successful
`ParseBlock` of bytes carrying ID 7 evicts the existing negative entry. -/
theorem claim_c2_witness :
    (Chain.Cache.getCachedBlock
        { getBlock := fun _ => .error .blockNotFound
          unmarshalBlock := fun _ => .ok ⟨7, 1, .Processing, true⟩
          buildBlock := .error "na"
          getStatusFn := .direct
          verifiedBlocks := []
          decidedBlocks := []
          unverifiedBlocks := []
          missingBlocks := [7]
          lastAcceptedBlock := ⟨⟨0, 0, .Accepted, true⟩⟩ } 7 = none) ∧
    (7 ∈ Chain.Cache.missingBlocks
        { getBlock := fun _ => .error .blockNotFound
          unmarshalBlock := fun _ => .ok ⟨7, 1, .Processing, true⟩
          buildBlock := .error "na"
          getStatusFn := .direct
          verifiedBlocks := []
          decidedBlocks := []
          unverifiedBlocks := []
          missingBlocks := [7]
          lastAcceptedBlock := ⟨⟨0, 0, .Accepted, true⟩⟩ }) ∧
    (Chain.Cache.GetBlock
        { getBlock := fun _ => .error .blockNotFound
          unmarshalBlock := fun _ => .ok ⟨7, 1, .Processing, true⟩
          buildBlock := .error "na"
          getStatusFn := .direct
          verifiedBlocks := []
          decidedBlocks := []
          unverifiedBlocks := []
          missingBlocks := [7]
          lastAcceptedBlock := ⟨⟨0, 0, .Accepted, true⟩⟩ } 7 =
      (.error .blockNotFound,
        { getBlock := fun _ => .error .blockNotFound
          unmarshalBlock := fun _ => .ok ⟨7, 1, .Processing, true⟩
          buildBlock := .error "na"
          getStatusFn := .direct
          verifiedBlocks := []
          decidedBlocks := []
          unverifiedBlocks := []
          missingBlocks := [7]
          lastAcceptedBlock := ⟨⟨0, 0, .Accepted, true⟩⟩ })) ∧
    (7 ∉ (Chain.Cache.ParseBlock
        { getBlock := fun _ => .error .blockNotFound
          unmarshalBlock := fun _ => .ok ⟨7, 1, .Processing, true⟩
          buildBlock := .error "na"
          getStatusFn := .direct
          verifiedBlocks := []
          decidedBlocks := []
          unverifiedBlocks := []
          missingBlocks := [7]
          lastAcceptedBlock := ⟨⟨0, 0, .Accepted, true⟩⟩ } []).2.missingBlocks) :=
  ⟨rfl, by decide,
    (claim_c2_negative_caching
        { getBlock := fun _ => .error .blockNotFound
          unmarshalBlock := fun _ => .ok ⟨7, 1, .Processing, true⟩
          buildBlock := .error "na"
          getStatusFn := .direct
          verifiedBlocks := []
          decidedBlocks := []
          unverifiedBlocks := []
          missingBlocks := [7]
          lastAcceptedBlock := ⟨⟨0, 0, .Accepted, true⟩⟩ } 7 rfl).2.2.1
      { getBlock := fun _ => .error .blockNotFound
        unmarshalBlock := fun _ => .ok ⟨7, 1, .Processing, true⟩
        buildBlock := .error "na"
        getStatusFn := .direct
        verifiedBlocks := []
        decidedBlocks := []
        unverifiedBlocks := []
        missingBlocks := [7]
        lastAcceptedBlock := ⟨⟨0, 0, .Accepted, true⟩⟩ } rfl (by decide),
    (claim_c2_negative_caching
        { getBlock := fun _ => .error .blockNotFound
          unmarshalBlock := fun _ => .ok ⟨7, 1, .Processing, true⟩
          buildBlock := .error "na"
          getStatusFn := .direct
          verifiedBlocks := []
          decidedBlocks := []
          unverifiedBlocks := []
          missingBlocks := [7]
          lastAcceptedBlock := ⟨⟨0, 0, .Accepted, true⟩⟩ } 7 rfl).2.2.2.1
      { getBlock := fun _ => .error .blockNotFound
        unmarshalBlock := fun _ => .ok ⟨7, 1, .Processing, true⟩
        buildBlock := .error "na"
        getStatusFn := .direct
        verifiedBlocks := []
        decidedBlocks := []
        unverifiedBlocks := []
        missingBlocks := [7]
        lastAcceptedBlock := ⟨⟨0, 0, .Accepted, true⟩⟩ } rfl
      [] ⟨7, 1, .Processing, true⟩ rfl rfl⟩

/-- C4: for an ID cached in a positive tier, `GetBlock`, `ParseBlock` (of
bytes parsing to that ID) and `BuildBlock` (producing that ID) all return the
existing cached wrapper with the cache state untouched, and the cached
wrapper is the one found in priority order verified → decided → unverified. -/
theorem claim_c4_canonical_identity (c : Chain.Cache) (blkID : Chain.ID)
    (w : Chain.BlockWrapper) (h : c.getCachedBlock blkID = some w) :
    (c.GetBlock blkID = (.ok w, c)) ∧
    (∀ b blk, c.unmarshalBlock b = .ok blk → blk.id = blkID →
      c.ParseBlock b = (.ok w, c)) ∧
    (∀ blk, c.buildBlock = .ok blk → blk.id = blkID →
      c.BuildBlock = (.ok w, c)) ∧
    (∀ w', Chain.lookupA blkID c.verifiedBlocks = some w' → w' = w) ∧
    (Chain.lookupA blkID c.verifiedBlocks = none →
      ∀ w', Chain.lookupA blkID c.decidedBlocks = some w' → w' = w) ∧
    (Chain.lookupA blkID c.verifiedBlocks = none →
      Chain.lookupA blkID c.decidedBlocks = none →
      ∀ w', Chain.lookupA blkID c.unverifiedBlocks = some w' → w' = w) := by
  refine ⟨?_, ?_, ?_, ?_, ?_, ?_⟩
  · simp [Chain.Cache.GetBlock, h]
  · intro b blk hum hid
    subst hid
    simp [Chain.Cache.ParseBlock, hum, h]
  · intro blk hbb hid
    subst hid
    simp [Chain.Cache.BuildBlock, hbb, h]
  · intro w' hv
    unfold Chain.Cache.getCachedBlock at h
    rw [hv] at h
    exact (Option.some.inj h).symm ▸ rfl
  · intro hv w' hd
    unfold Chain.Cache.getCachedBlock at h
    rw [hv, hd] at h
    exact (Option.some.inj h).symm ▸ rfl
  · intro hv hd w' hu
    unfold Chain.Cache.getCachedBlock at h
    rw [hv, hd, hu] at h
    exact (Option.some.inj h).symm ▸ rfl

/-- Witness for C4: a cache with the wrapper in the decided tier. -/
theorem claim_c4_witness :
    (Chain.Cache.getCachedBlock
        { getBlock := fun _ => .error .blockNotFound
          unmarshalBlock := fun _ => .ok ⟨5, 1, .Processing, true⟩
          buildBlock := .error "na"
          getStatusFn := .direct
          verifiedBlocks := []
          decidedBlocks := [(5, ⟨⟨5, 1, .Accepted, true⟩⟩)]
          unverifiedBlocks := []
          missingBlocks := []
          lastAcceptedBlock := ⟨⟨5, 1, .Accepted, true⟩⟩ } 5 =
      some ⟨⟨5, 1, .Accepted, true⟩⟩) ∧
    Chain.Cache.GetBlock
        { getBlock := fun _ => .error .blockNotFound
          unmarshalBlock := fun _ => .ok ⟨5, 1, .Processing, true⟩
          buildBlock := .error "na"
          getStatusFn := .direct
          verifiedBlocks := []
          decidedBlocks := [(5, ⟨⟨5, 1, .Accepted, true⟩⟩)]
          unverifiedBlocks := []
          missingBlocks := []
          lastAcceptedBlock := ⟨⟨5, 1, .Accepted, true⟩⟩ } 5 =
      (.ok ⟨⟨5, 1, .Accepted, true⟩⟩,
        { getBlock := fun _ => .error .blockNotFound
          unmarshalBlock := fun _ => .ok ⟨5, 1, .Processing, true⟩
          buildBlock := .error "na"
          getStatusFn := .direct
          verifiedBlocks := []
          decidedBlocks := [(5, ⟨⟨5, 1, .Accepted, true⟩⟩)]
          unverifiedBlocks := []
          missingBlocks := []
          lastAcceptedBlock := ⟨⟨5, 1, .Accepted, true⟩⟩ }) :=
  ⟨rfl, (claim_c4_canonical_identity
      { getBlock := fun _ => .error .blockNotFound
        unmarshalBlock := fun _ => .ok ⟨5, 1, .Processing, true⟩
        buildBlock := .error "na"
        getStatusFn := .direct
        verifiedBlocks := []
        decidedBlocks := [(5, ⟨⟨5, 1, .Accepted, true⟩⟩)]
        unverifiedBlocks := []
        missingBlocks := []
        lastAcceptedBlock := ⟨⟨5, 1, .Accepted, true⟩⟩ } 5
      ⟨⟨5, 1, .Accepted, true⟩⟩ rfl).1⟩

/-- Counterexample to C9 as stated: when `Accept()` fails during `Execute`,
the returned error message is the constant accept-failure text, which does
not contain the vertex's ID (here 42). -/
theorem claim_c9_counterexample :
    (Bootstrap.Execute ⟨fun _ => .error "na", fun _ => none⟩
        ⟨42, .ok [], .ok [], .Processing, some "boom", []⟩).result =
      some "failed to accept vertex in bootstrapping: boom" ∧
    strContains "failed to accept vertex in bootstrapping: boom"
      (toString (Bootstrap.Vertex.id
        ⟨42, .ok [], .ok [], .Processing, some "boom", []⟩)) = false := by
  constructor
  · rfl
  · decide

/-- C9 amended: for a Processing vertex passing the dependency and
transaction gates, a failing `Accept()` makes `Execute` return the
accept-failure error (whose message identifies the operation but not the
vertex's ID), and a failing save makes `Execute` return an error whose
message does contain the vertex's ID. -/
theorem claim_c9_amended_error_context (mgr : Bootstrap.Manager)
    (vtx : Bootstrap.Vertex) (ps : List Bootstrap.ID) (txs : List Bootstrap.Tx)
    (hps : vtx.parentsRes = .ok ps)
    (hdeps : Bootstrap.addMissing mgr [] ps = [])
    (htxs : vtx.txsRes = .ok txs)
    (hok : txs.any (fun tx => tx.status ≠ Status.Accepted) = false)
    (hproc : vtx.status = Status.Processing) :
    (∀ e, vtx.acceptRes = some e →
      (Bootstrap.Execute mgr vtx).result =
        some ("failed to accept vertex in bootstrapping: " ++ e)) ∧
    (∀ e, vtx.acceptRes = none →
      mgr.saveVertexRes { vtx with status := Status.Accepted } = some e →
      (Bootstrap.Execute mgr vtx).result =
        some ("failed to save block " ++ toString vtx.id
          ++ " to VM's database: " ++ e) ∧
      strContains ("failed to save block " ++ toString vtx.id
          ++ " to VM's database: " ++ e) (toString vtx.id) = true) := by
  have hall : ∀ x ∈ txs, x.status = Status.Accepted := by
    intro x hx
    by_contra hne
    have hx2 : txs.any (fun tx => tx.status ≠ Status.Accepted) = true :=
      List.any_eq_true.mpr ⟨x, hx, by simpa using hne⟩
    rw [hok] at hx2
    cases hx2
  obtain ⟨vid, pr, tr, vst, ar, vb⟩ := vtx
  dsimp only at hps htxs hproc
  subst hps htxs hproc
  constructor
  · intro e hacc
    dsimp only at hacc
    subst hacc
    simp [Bootstrap.Execute, Bootstrap.MissingDependencies, hdeps, hok, hall]
    rw [if_neg (by rintro ⟨x, hx, hne⟩; exact hne (hall x hx))]
  · intro e hacc hsave
    dsimp only at hacc
    subst hacc
    constructor
    · simp only [Bootstrap.Execute, Bootstrap.MissingDependencies]
      simp [hdeps, hok, hall, hsave]
      rw [if_neg (by rintro ⟨x, hx, hne⟩; exact hne (hall x hx))]
    · unfold strContains
      exact occursIn_of_eq (toString vid).data _ "failed to save block ".data
        (" to VM's database: ".data ++ e.data)
        (by simp [string_data_append, List.append_assoc])

/-- Witness for the amended C9 at a concrete job whose save fails. -/
theorem claim_c9_witness :
    (Bootstrap.Vertex.parentsRes
        ⟨42, .ok [], .ok [], .Processing, none, []⟩ = .ok []) ∧
    (Bootstrap.addMissing ⟨fun _ => .error "na", fun _ => some "disk full"⟩ [] [] = []) ∧
    ((Bootstrap.Execute ⟨fun _ => .error "na", fun _ => some "disk full"⟩
        ⟨42, .ok [], .ok [], .Processing, none, []⟩).result =
      some ("failed to save block " ++ toString (42 : Nat)
        ++ " to VM's database: " ++ "disk full") ∧
     strContains ("failed to save block " ++ toString (42 : Nat)
        ++ " to VM's database: " ++ "disk full") (toString (42 : Nat)) = true) :=
  ⟨rfl, rfl,
    (claim_c9_amended_error_context ⟨fun _ => .error "na", fun _ => some "disk full"⟩
        ⟨42, .ok [], .ok [], .Processing, none, []⟩ [] [] rfl rfl rfl rfl rfl).2
      "disk full" rfl rfl⟩

/-- C8 (code bug): with no height oracle, `NewCache` installs the direct
resolver, but `NewMeteredCache` leaves `getStatus` nil (`unset`), so the
first classification through the metered cache hits the nil resolver instead
of reporting the block's own status: the two constructions diverge at the
same input. -/
theorem claim_c8_metered_nil_resolver :
    (Chain.NewCache
        { lastAcceptedBlock := ⟨0, 0, .Accepted, true⟩
          getBlock := fun i =>
            if i = 7 then .ok ⟨7, 1, .Processing, true⟩ else .error .blockNotFound
          unmarshalBlock := fun _ => .error "na"
          buildBlock := .error "na"
          getBlockIDAtHeight := none }).getStatusFn = Chain.GetStatusFn.direct ∧
    (Chain.NewMeteredCache
        { lastAcceptedBlock := ⟨0, 0, .Accepted, true⟩
          getBlock := fun i =>
            if i = 7 then .ok ⟨7, 1, .Processing, true⟩ else .error .blockNotFound
          unmarshalBlock := fun _ => .error "na"
          buildBlock := .error "na"
          getBlockIDAtHeight := none }).getStatusFn = Chain.GetStatusFn.unset ∧
    ((Chain.NewCache
        { lastAcceptedBlock := ⟨0, 0, .Accepted, true⟩
          getBlock := fun i =>
            if i = 7 then .ok ⟨7, 1, .Processing, true⟩ else .error .blockNotFound
          unmarshalBlock := fun _ => .error "na"
          buildBlock := .error "na"
          getBlockIDAtHeight := none }).GetBlock 7).1 =
      .ok ⟨⟨7, 1, .Processing, true⟩⟩ ∧
    ((Chain.NewMeteredCache
        { lastAcceptedBlock := ⟨0, 0, .Accepted, true⟩
          getBlock := fun i =>
            if i = 7 then .ok ⟨7, 1, .Processing, true⟩ else .error .blockNotFound
          unmarshalBlock := fun _ => .error "na"
          buildBlock := .error "na"
          getBlockIDAtHeight := none }).GetBlock 7).1 =
      .error (.getStatusFailed 7 .nilFunction) :=
  ⟨rfl, rfl, rfl, rfl⟩

/-- Putting a fresh ID into `decidedBlocks` preserves tier exclusivity. -/
theorem tierExclusive_putDecided {c : Chain.Cache} (hT : c.TierExclusive)
    {id : Chain.ID} (hv : id ∉ Chain.keysOf c.verifiedBlocks)
    (hu : id ∉ Chain.keysOf c.unverifiedBlocks) (hm : id ∉ c.missingBlocks)
    (w : Chain.BlockWrapper) :
    Chain.Cache.TierExclusive
      { c with decidedBlocks := Chain.putAssoc c.decidedBlocks id w } := by
  obtain ⟨T1, T2, T3⟩ := hT
  refine ⟨?_, ?_, ?_⟩
  · intro id' h'
    refine ⟨?_, (T1 id' h').2.1, (T1 id' h').2.2⟩
    intro hmem
    rcases mem_keysOf_putAssoc hmem with rfl | hold
    · exact hv h'
    · exact (T1 id' h').1 hold
  · intro id' h'
    rcases mem_keysOf_putAssoc h' with rfl | hold
    · exact ⟨hu, hm⟩
    · exact T2 id' hold
  · intro id' h'
    exact T3 id' h'

/-- Putting a fresh ID into `unverifiedBlocks` preserves tier exclusivity. -/
theorem tierExclusive_putUnverified {c : Chain.Cache} (hT : c.TierExclusive)
    {id : Chain.ID} (hv : id ∉ Chain.keysOf c.verifiedBlocks)
    (hd : id ∉ Chain.keysOf c.decidedBlocks) (hm : id ∉ c.missingBlocks)
    (w : Chain.BlockWrapper) :
    Chain.Cache.TierExclusive
      { c with unverifiedBlocks := Chain.putAssoc c.unverifiedBlocks id w } := by
  obtain ⟨T1, T2, T3⟩ := hT
  refine ⟨?_, ?_, ?_⟩
  · intro id' h'
    refine ⟨(T1 id' h').1, ?_, (T1 id' h').2.2⟩
    intro hmem
    rcases mem_keysOf_putAssoc hmem with rfl | hold
    · exact hv h'
    · exact (T1 id' h').2.1 hold
  · intro id' h'
    refine ⟨?_, (T2 id' h').2⟩
    intro hmem
    rcases mem_keysOf_putAssoc hmem with rfl | hold
    · exact hd h'
    · exact (T2 id' h').1 hold
  · intro id' h'
    rcases mem_keysOf_putAssoc h' with rfl | hold
    · exact hm
    · exact T3 id' hold

/-- Recording a fresh ID in `missingBlocks` preserves tier exclusivity. -/
theorem tierExclusive_insertMissing {c : Chain.Cache} (hT : c.TierExclusive)
    {id : Chain.ID} (hv : id ∉ Chain.keysOf c.verifiedBlocks)
    (hd : id ∉ Chain.keysOf c.decidedBlocks)
    (hu : id ∉ Chain.keysOf c.unverifiedBlocks) :
    Chain.Cache.TierExclusive
      { c with missingBlocks := Chain.insertID id c.missingBlocks } := by
  obtain ⟨T1, T2, T3⟩ := hT
  refine ⟨?_, ?_, ?_⟩
  · intro id' h'
    refine ⟨(T1 id' h').1, (T1 id' h').2.1, ?_⟩
    intro hmem
    rcases mem_insertID hmem with rfl | hold
    · exact hv h'
    · exact (T1 id' h').2.2 hold
  · intro id' h'
    refine ⟨(T2 id' h').1, ?_⟩
    intro hmem
    rcases mem_insertID hmem with rfl | hold
    · exact hd h'
    · exact (T2 id' h').2 hold
  · intro id' h'
    intro hmem
    rcases mem_insertID hmem with rfl | hold
    · exact hu h'
    · exact T3 id' h' hold

/-- Evicting an ID from `missingBlocks` preserves tier exclusivity. -/
theorem tierExclusive_filterMissing {c : Chain.Cache} (hT : c.TierExclusive)
    (k : Chain.ID) :
    Chain.Cache.TierExclusive
      { c with missingBlocks := c.missingBlocks.filter (fun x => x ≠ k) } := by
  obtain ⟨T1, T2, T3⟩ := hT
  refine ⟨?_, ?_, ?_⟩
  · intro id' h'
    exact ⟨(T1 id' h').1, (T1 id' h').2.1,
      fun hmem => (T1 id' h').2.2 (mem_filter_sub hmem)⟩
  · intro id' h'
    exact ⟨(T2 id' h').1, fun hmem => (T2 id' h').2 (mem_filter_sub hmem)⟩
  · intro id' h' hmem
    exact T3 id' h' (mem_filter_sub hmem)

/-- `addBlockOutsideConsensus` preserves tier exclusivity when the block's ID
is in no tier and not negatively cached. -/
theorem addOutside_preserves {c : Chain.Cache} {blk : Chain.Blk}
    (hT : c.TierExclusive)
    (hv : blk.id ∉ Chain.keysOf c.verifiedBlocks)
    (hd : blk.id ∉ Chain.keysOf c.decidedBlocks)
    (hu : blk.id ∉ Chain.keysOf c.unverifiedBlocks)
    (hm : blk.id ∉ c.missingBlocks) :
    (c.addBlockOutsideConsensus blk).2.TierExclusive := by
  unfold Chain.Cache.addBlockOutsideConsensus
  cases Chain.runGetStatus c.getStatusFn c.lastAcceptedBlock.blk.height blk with
  | error e => exact hT
  | ok p =>
    obtain ⟨st, blk'⟩ := p
    cases st with
    | Unknown => exact hT
    | Accepted => exact tierExclusive_putDecided hT hv hu hm ⟨blk'⟩
    | Rejected => exact tierExclusive_putDecided hT hv hu hm ⟨blk'⟩
    | Processing => exact tierExclusive_putUnverified hT hv hd hm ⟨blk'⟩

/-- `addBlockOutsideConsensus` never changes the store function. -/
theorem addOutside_getBlock (c : Chain.Cache) (blk : Chain.Blk) :
    (c.addBlockOutsideConsensus blk).2.getBlock = c.getBlock := by
  unfold Chain.Cache.addBlockOutsideConsensus
  cases Chain.runGetStatus c.getStatusFn c.lastAcceptedBlock.blk.height blk with
  | error e => rfl
  | ok p =>
    obtain ⟨st, blk'⟩ := p
    cases st <;> rfl

/-- No public call changes the store function. -/
theorem applyOp_getBlock (c : Chain.Cache) (op : Chain.CacheOp) :
    (c.applyOp op).getBlock = c.getBlock := by
  cases op with
  | getBlock blkID =>
    show (c.GetBlock blkID).2.getBlock = c.getBlock
    unfold Chain.Cache.GetBlock
    cases c.getCachedBlock blkID with
    | some w => rfl
    | none =>
      by_cases hm : blkID ∈ c.missingBlocks
      · rw [if_pos hm]
      · rw [if_neg hm]
        cases c.getBlock blkID with
        | error se => cases se <;> rfl
        | ok blk => exact addOutside_getBlock c blk
  | parseBlock b =>
    show (c.ParseBlock b).2.getBlock = c.getBlock
    unfold Chain.Cache.ParseBlock
    cases c.unmarshalBlock b with
    | error msg => rfl
    | ok blk =>
      dsimp only
      cases c.getCachedBlock blk.id with
      | some w => rfl
      | none => exact addOutside_getBlock _ blk
  | buildBlock =>
    show (c.BuildBlock).2.getBlock = c.getBlock
    unfold Chain.Cache.BuildBlock
    cases c.buildBlock with
    | error msg => rfl
    | ok blk =>
      dsimp only
      cases c.getCachedBlock blk.id with
      | some w => rfl
      | none => exact addOutside_getBlock _ blk
  | flushCaches => rfl

/-- Store consistency survives every public call. -/
theorem applyOp_storeConsistent {c : Chain.Cache} (op : Chain.CacheOp)
    (hS : c.StoreConsistent) : (c.applyOp op).StoreConsistent := by
  intro i b h
  rw [applyOp_getBlock] at h
  exact hS i b h

/-- One public call preserves tier exclusivity (given a store returning
blocks that carry the requested ID). -/
theorem applyOp_preserves (c : Chain.Cache) (op : Chain.CacheOp)
    (hS : c.StoreConsistent) (hT : c.TierExclusive) :
    (c.applyOp op).TierExclusive := by
  cases op with
  | getBlock blkID =>
    show (c.GetBlock blkID).2.TierExclusive
    unfold Chain.Cache.GetBlock
    cases hg : c.getCachedBlock blkID with
    | some w => exact hT
    | none =>
      obtain ⟨h1, h2, h3⟩ := getCachedBlock_none hg
      have hv := lookupA_none_not_mem h1
      have hd := lookupA_none_not_mem h2
      have hu := lookupA_none_not_mem h3
      by_cases hm : blkID ∈ c.missingBlocks
      · rw [if_pos hm]
        exact hT
      · rw [if_neg hm]
        cases hst : c.getBlock blkID with
        | error se =>
          cases se with
          | blockNotFound => exact tierExclusive_insertMissing hT hv hd hu
          | other msg => exact hT
        | ok blk =>
          have hid : blk.id = blkID := hS blkID blk hst
          subst hid
          exact addOutside_preserves hT hv hd hu hm
  | parseBlock b =>
    show (c.ParseBlock b).2.TierExclusive
    unfold Chain.Cache.ParseBlock
    cases hum : c.unmarshalBlock b with
    | error msg => exact hT
    | ok blk =>
      dsimp only
      cases hg : c.getCachedBlock blk.id with
      | some w => exact hT
      | none =>
        obtain ⟨h1, h2, h3⟩ := getCachedBlock_none hg
        have hv := lookupA_none_not_mem h1
        have hd := lookupA_none_not_mem h2
        have hu := lookupA_none_not_mem h3
        exact addOutside_preserves (tierExclusive_filterMissing hT blk.id)
          hv hd hu (not_mem_filter_ne blk.id c.missingBlocks)
  | buildBlock =>
    show (c.BuildBlock).2.TierExclusive
    unfold Chain.Cache.BuildBlock
    cases hbb : c.buildBlock with
    | error msg => exact hT
    | ok blk =>
      dsimp only
      cases hg : c.getCachedBlock blk.id with
      | some w => exact hT
      | none =>
        obtain ⟨h1, h2, h3⟩ := getCachedBlock_none hg
        have hv := lookupA_none_not_mem h1
        have hd := lookupA_none_not_mem h2
        have hu := lookupA_none_not_mem h3
        exact addOutside_preserves (tierExclusive_filterMissing hT blk.id)
          hv hd hu (not_mem_filter_ne blk.id c.missingBlocks)
  | flushCaches =>
    show (c.FlushCaches).TierExclusive
    refine ⟨?_, ?_, ?_⟩
    · intro id' h'
      refine ⟨?_, ?_, ?_⟩ <;> simp [Chain.Cache.FlushCaches, Chain.keysOf]
    · intro id' h'
      simp [Chain.Cache.FlushCaches, Chain.keysOf] at h'
    · intro id' h'
      simp [Chain.Cache.FlushCaches, Chain.keysOf] at h'

/-- Tier exclusivity is preserved along any call sequence. -/
theorem runOps_preserves (ops : List Chain.CacheOp) (c : Chain.Cache)
    (hS : c.StoreConsistent) (hT : c.TierExclusive) :
    (c.runOps ops).TierExclusive := by
  induction ops generalizing c with
  | nil => exact hT
  | cons op rest ih =>
    exact ih (c.applyOp op) (applyOp_storeConsistent op hS)
      (applyOp_preserves c op hS hT)

/-- A freshly constructed cache is tier exclusive. -/
theorem newCache_tierExclusive (config : Chain.Config) :
    (Chain.NewCache config).TierExclusive := by
  refine ⟨?_, ?_, ?_⟩ <;>
    simp [Chain.NewCache, Chain.keysOf, Chain.putAssoc]

/-- A freshly metered-constructed cache is tier exclusive. -/
theorem newMeteredCache_tierExclusive (config : Chain.Config) :
    (Chain.NewMeteredCache config).TierExclusive := by
  refine ⟨?_, ?_, ?_⟩ <;>
    simp [Chain.NewMeteredCache, Chain.keysOf, Chain.putAssoc]

/-- C3: from construction (by either constructor), any sequence of
`GetBlock` / `ParseBlock` / `BuildBlock` / `FlushCaches` calls keeps every ID
in at most one of the verified map, the decided cache and the unverified
cache, and never simultaneously in a positive tier and in the missing cache
(assuming the store returns blocks carrying the requested ID). -/
theorem claim_c3_tier_exclusivity (config : Chain.Config)
    (hS : ∀ i b, config.getBlock i = .ok b → b.id = i)
    (ops : List Chain.CacheOp) :
    ((Chain.NewCache config).runOps ops).TierExclusive ∧
    ((Chain.NewMeteredCache config).runOps ops).TierExclusive := by
  constructor
  · exact runOps_preserves ops _ hS (newCache_tierExclusive config)
  · exact runOps_preserves ops _ hS (newMeteredCache_tierExclusive config)

/-- Witness for C3: a concrete configuration and call sequence. -/
theorem claim_c3_witness :
    (∀ i b, Chain.Config.getBlock
        { lastAcceptedBlock := ⟨0, 0, .Accepted, true⟩
          getBlock := fun _ => .error .blockNotFound
          unmarshalBlock := fun _ => .ok ⟨3, 1, .Processing, true⟩
          buildBlock := .ok ⟨4, 2, .Processing, true⟩
          getBlockIDAtHeight := none } i = .ok b → b.id = i) ∧
    Chain.Cache.TierExclusive
      ((Chain.NewCache
        { lastAcceptedBlock := ⟨0, 0, .Accepted, true⟩
          getBlock := fun _ => .error .blockNotFound
          unmarshalBlock := fun _ => .ok ⟨3, 1, .Processing, true⟩
          buildBlock := .ok ⟨4, 2, .Processing, true⟩
          getBlockIDAtHeight := none }).runOps
        [.getBlock 9, .parseBlock [], .buildBlock, .getBlock 9, .flushCaches,
         .parseBlock []]) :=
  ⟨(fun _i _b h => nomatch h),
    (claim_c3_tier_exclusivity
        { lastAcceptedBlock := ⟨0, 0, .Accepted, true⟩
          getBlock := fun _ => .error .blockNotFound
          unmarshalBlock := fun _ => .ok ⟨3, 1, .Processing, true⟩
          buildBlock := .ok ⟨4, 2, .Processing, true⟩
          getBlockIDAtHeight := none }
        (fun _i _b h => nomatch h)
        [.getBlock 9, .parseBlock [], .buildBlock, .getBlock 9, .flushCaches,
         .parseBlock []]).1⟩
